import Mathlib

/-!
Verification development for the Codus terminal agent (src/index.js).

The JavaScript source is shallowly embedded below: JS strings are modeled as
Lean `String` (or `List Char` where character-level reasoning is needed), the
numbers the tools manipulate as `Int`, the local filesystem as an explicit
`FS` record threaded through the loop, the Gemini call outcome as
`Except String Decision` (a parsed decision, or a failure message caught by
the try/catch in `callGemini`), and the terminal output as a log of
(category, text) pairs mirroring `printStep`.
-/

namespace Codus

/-- Models JavaScript `String.prototype.split` with a one-character separator,
as used by `String(input).split(",")` (src/index.js line 179) and by the
`path.dirname` model below.  `split` never returns an empty list: splitting
the empty string yields `[""]`, and a trailing separator yields a trailing
empty segment. -/
def splitOnChar (sep : Char) : List Char → List (List Char)
  | [] => [[]]
  | c :: cs =>
    match splitOnChar sep cs with
    | [] => if c = sep then [[], []] else [[c]]
    | h :: t => if c = sep then [] :: h :: t else (c :: h) :: t

/-- String-level wrapper of `splitOnChar`. -/
def jsSplit (sep : Char) (s : String) : List String :=
  (splitOnChar sep s.toList).map String.mk

/-- Accumulates decimal digits; fails on the first non-digit character. -/
def parseDigitsAux : List Char → Nat → Option Nat
  | [], acc => some acc
  | c :: cs, acc =>
    if c.isDigit then parseDigitsAux cs (acc * 10 + (c.toNat - 48)) else none

/-- Parses a non-empty run of decimal digits. -/
def parseDigits : List Char → Option Nat
  | [] => none
  | cs => parseDigitsAux cs 0

/-- Models the JavaScript `Number(...)` conversion applied to the split
operands at src/index.js line 179, restricted to the inputs the agent's
contract describes (decimal integer literals): the empty string converts to
`0` (as `Number("")` does), an optional sign followed by decimal digits
converts to the corresponding integer, and anything else is NaN, modeled as
`none` (the `isNaN` test at line 180 then fires).  JavaScript's further
numeric forms (floats, hex, surrounding whitespace) are outside the inputs
the specification exercises and are abstracted away. -/
def jsNumber (s : String) : Option Int :=
  match s.toList with
  | [] => some 0
  | '-' :: cs => (parseDigits cs).map (fun n => -(n : Int))
  | '+' :: cs => (parseDigits cs).map (fun n => (n : Int))
  | cs => (parseDigits cs).map (fun n => (n : Int))

/-- The `addTwoNumbers` tool, src/index.js lines 53-55. -/
def addTwoNumbers (x y : Int) : Int := x + y

/-- A tool result as the dynamically-typed JS `result` variable: the
`addTwoNumbers` branch produces a number, every other branch a string. -/
inductive ToolResult where
  | num (n : Int)
  | str (s : String)
deriving DecidableEq

/-- The `addTwoNumbers` dispatch branch, src/index.js lines 177-184:
`const [x, y] = String(input).split(",").map(Number)` takes the first two
split segments (a missing second segment is `undefined`, whose `Number` image
is NaN), the `isNaN` guard throws `"Invalid number input."` if either operand
failed to parse, and the catch turns that into the error string. -/
def runAddTwoNumbers (input : String) : ToolResult :=
  let parts := jsSplit ',' input
  let x : Option Int :=
    match parts with
    | p :: _ => jsNumber p
    | [] => none
  let y : Option Int :=
    match parts with
    | _ :: p :: _ => jsNumber p
    | _ => none
  match x, y with
  | some a, some b => ToolResult.num (addTwoNumbers a b)
  | _, _ => ToolResult.str "Error executing tool: Invalid number input."

/-- The local filesystem: the set of existing directory paths and a map from
file path to file content.  `writeFile` is the only operation that touches
it. -/
structure FS where
  dirs : List String
  files : List (String × String)
deriving DecidableEq

/-- Models Node's `path.dirname` (src/index.js line 65) for the ordinary
relative and absolute paths the agent writes: everything before the last
`/` separator, `"."` when there is no separator, `"/"` for a top-level
absolute path. -/
def dirname (p : String) : String :=
  let parts := jsSplit '/' p
  match parts with
  | [] => "."
  | [_] => "."
  | _ =>
    let d := String.intercalate "/" parts.dropLast
    if d = "" then "/" else d

/-- All ancestor prefixes of a directory path, innermost last: the chain of
directories `fs.mkdirSync(dirname, \x7b recursive: true \x7d)` (line 67)
creates. -/
def dirChain (d : String) : List String :=
  let parts := jsSplit '/' d
  (List.range parts.length).map (fun i => String.intercalate "/" (parts.take (i + 1)))

/-- Models `fs.mkdirSync(d, \x7b recursive: true \x7d)`: creates every missing
directory on the chain, never fails if some already exist. -/
def mkdirRecursive (fs : FS) (d : String) : FS :=
  { fs with dirs := fs.dirs ++ (dirChain d).filter (fun x => !(fs.dirs.contains x)) }

/-- Association-list update: models `fs.writeFileSync` replacing the content
of an existing path (overwrite, not append) or creating the entry. -/
def setFile : List (String × String) → String → String → List (String × String)
  | [], fp, c => [(fp, c)]
  | (p, c0) :: rest, fp, c =>
    if p = fp then (fp, c) :: rest else (p, c0) :: setFile rest fp c

/-- Association-list lookup of a file's content. -/
def lookupFile : List (String × String) → String → Option String
  | [], _ => none
  | (p, c) :: rest, fp => if p = fp then some c else lookupFile rest fp

/-- The `writeFile` tool, src/index.js lines 63-74: creates the missing
directory chain when `fs.existsSync(dirname)` is false, writes (replacing any
existing file), and reports success.  The reported count is
`fileContent.length`, the JS character (UTF-16 code unit) count, not the
UTF-8 byte count actually written.  I/O failures (the catch at lines 71-73)
are abstracted away: the modeled filesystem always accepts the write. -/
def writeFile (fs : FS) (filePath fileContent : String) : FS × String :=
  let d := dirname filePath
  let fs1 := if fs.dirs.contains d then fs else mkdirRecursive fs d
  let fs2 := { fs1 with files := setFile fs1.files filePath fileContent }
  (fs2, "Successfully wrote " ++ toString fileContent.length ++ " bytes to " ++ filePath)

/-- UTF-8 byte width of one character. -/
def utf8CharLen (c : Char) : Nat :=
  if c.toNat < 128 then 1
  else if c.toNat < 2048 then 2
  else if c.toNat < 65536 then 3 else 4

/-- The number of bytes `fs.writeFileSync` actually writes for a string under
its default UTF-8 encoding: the UTF-8 byte count of the content. -/
def utf8Len (s : String) : Nat :=
  s.toList.foldl (fun n c => n + utf8CharLen c) 0

/-- A dynamically-typed tool `input` value, restricted to the shapes the
dispatch code inspects: a string, an object carrying the two fields the
`writeFile` validation reads (`none` models an absent/undefined field, and
`some ""` an empty string, which is falsy for `!input.filePath`), or
`null`. -/
inductive JSValue where
  | vstr (s : String)
  | vobj (filePath : Option String) (fileContent : Option String)
  | vnull
deriving DecidableEq

/-- Models the JS `String(...)` coercion applied to the tool input at
line 179. -/
def jsToString : JSValue → String
  | JSValue.vstr s => s
  | JSValue.vnull => "null"
  | JSValue.vobj _ _ => "[object Object]"

/-- JSON string literal (escaping of special characters elided: no claim
inspects escaped content). -/
def jsonString (s : String) : String := "\"" ++ s ++ "\""

/-- Models `JSON.stringify` on a tool input value. -/
def serializeJSValue : JSValue → String
  | JSValue.vstr s => jsonString s
  | JSValue.vnull => "null"
  | JSValue.vobj fp fc =>
    "\x7b\"filePath\":" ++ (match fp with | some s => jsonString s | none => "null") ++
      ",\"fileContent\":" ++ (match fc with | some s => jsonString s | none => "null") ++ "\x7d"

/-- A parsed oracle Decision (the destructured `\x7b step, tool, input,
content \x7d` of src/index.js line 166).  `step` is kept as a raw string so
that unrecognized step values can be modeled; `tool = none` models a
null/absent tool field. -/
structure Decision where
  step : String
  tool : Option String
  input : JSValue
  content : String
deriving DecidableEq

/-- Models `JSON.stringify(response)` at line 163 for a parsed Decision. -/
def serializeDecision (d : Decision) : String :=
  "\x7b\"step\":" ++ jsonString d.step ++ ",\"tool\":" ++
    (match d.tool with | some t => jsonString t | none => "null") ++
    ",\"input\":" ++ serializeJSValue d.input ++
    ",\"content\":" ++ jsonString d.content ++ "\x7d"

/-- One entry of `chatHistory`: a role (`"user"` or `"model"`) and the text of
its single part. -/
structure Turn where
  role : String
  text : String
deriving DecidableEq

/-- Template-literal display of the tool field (`null` prints as "null"). -/
def toolDisplay : Option String → String
  | some t => t
  | none => "null"

/-- The validation error produced at lines 188-197 when the `writeFile` input
is not an object with a truthy `filePath` and a defined `fileContent`,
wrapped by the catch at lines 199-201. -/
def writeFileInvalidMsg : String :=
  "Error executing tool: Invalid input for writeFile. Expected an object with \x27filePath\x27 and \x27fileContent\x27."

/-- Template-literal display of a tool result (line 206). -/
def resultText : ToolResult → String
  | ToolResult.num n => toString n
  | ToolResult.str s => s

/-- The observation turn text pushed at line 210:
`JSON.stringify(\x7b step: "observe", output: result \x7d)`. -/
def observationText (r : ToolResult) : String :=
  "\x7b\"step\":\"observe\",\"output\":" ++
    (match r with | ToolResult.num n => toString n | ToolResult.str s => jsonString s) ++ "\x7d"

/-- The tool dispatch of the action branch, src/index.js lines 177-204:
strict-equality checks on the tool name, the `addTwoNumbers` and `writeFile`
branches with their validation and catch blocks, and the
`Unknown tool: ...` fallback. -/
def dispatchTool (fs : FS) (tool : Option String) (input : JSValue) : FS × ToolResult :=
  if tool = some "addTwoNumbers" then
    (fs, runAddTwoNumbers (jsToString input))
  else if tool = some "writeFile" then
    match input with
    | JSValue.vobj (some fp) (some content) =>
      if fp = "" then (fs, ToolResult.str writeFileInvalidMsg)
      else
        let r := writeFile fs fp content
        (r.1, ToolResult.str r.2)
    | _ => (fs, ToolResult.str writeFileInvalidMsg)
  else
    (fs, ToolResult.str ("Unknown tool: " ++ toolDisplay tool))

/-- The state the loop body reads and writes: the `chatHistory` global, the
filesystem, and the lines printed so far (each tagged with its `printStep`
category). -/
structure LoopState where
  history : List Turn
  fs : FS
  log : List (String × String)
deriving DecidableEq

/-- The action announcement printed at line 174. -/
def actionAnnouncement (d : Decision) : String :=
  "Tool: " ++ toolDisplay d.tool ++ ", Input: " ++ serializeJSValue d.input

/-- One iteration of the `while (true)` body (src/index.js lines 161-218)
after a successful `callGemini`: the serialized decision is pushed as a
`model` turn unconditionally, then the step is interpreted.  Returns the new
state, and `some content` exactly when the step was `"output"` (the `break`
at line 217). -/
def stepIteration (st : LoopState) (d : Decision) : LoopState × Option String :=
  let st1 : LoopState := { st with history := st.history ++ [⟨"model", serializeDecision d⟩] }
  if d.step = "think" then
    ({ st1 with log := st1.log ++ [("think", d.content)] }, none)
  else if d.step = "action" then
    let st2 : LoopState := { st1 with log := st1.log ++ [("action", actionAnnouncement d)] }
    let r := dispatchTool st2.fs d.tool d.input
    ({ st2 with
        fs := r.1,
        log := st2.log ++ [("observe", "Result: " ++ resultText r.2)],
        history := st2.history ++ [⟨"user", observationText r.2⟩] }, none)
  else if d.step = "output" then
    ({ st1 with log := st1.log ++ [("output", d.content)] }, some d.content)
  else
    (st1, none)

/-- How one query's loop ended: `failed` models the `break` after a null
`callGemini` result, `answered` the `break` of the output branch, and
`exhausted` marks the end of the finite oracle script (the real loop would
issue a further request there). -/
inductive LoopExit where
  | failed
  | answered (content : String)
  | exhausted
deriving DecidableEq

/-- The error line printed inside `callGemini`'s catch (lines 139-145).
Transport errors, non-2xx statuses, content blocks and JSON parse failures
all funnel into this single line; src/index.js then returns `null`. -/
def geminiErrorLine (msg : String) : String :=
  "Error calling Gemini API or parsing response: " ++ msg

/-- The `runConversation` loop (src/index.js lines 151-221), driven by a
finite script of oracle outcomes, one per `callGemini` call: a failure
(anything `callGemini` catches, yielding `null`) prints the error line and
breaks out; a decision runs one iteration and either breaks with the answer
or continues.  Returns the final state, the exit kind, and the number of
oracle requests consumed.  The function is total: no exception escapes. -/
def runConversation : LoopState → List (Except String Decision) → LoopState × LoopExit × Nat
  | st, [] => (st, LoopExit.exhausted, 0)
  | st, Except.error msg :: _ =>
    ({ st with log := st.log ++ [("error", geminiErrorLine msg)] }, LoopExit.failed, 1)
  | st, Except.ok d :: rest =>
    match (stepIteration st d).2 with
    | some ans => ((stepIteration st d).1, LoopExit.answered ans, 1)
    | none =>
      let r := runConversation (stepIteration st d).1 rest
      (r.1, r.2.1, r.2.2 + 1)

/-- The fixed system prompt (src/index.js lines 22-48); its exact wording is
immaterial to every claim, so literal braces are written as escapes. -/
def SYSTEM_PROMPT : String :=
  "You are a helpful assistant designed to solve user queries, including writing code and files to the local system.\nYou operate in a loop with the following steps: THINK, ACTION, OBSERVE, and OUTPUT.\n\n1.  **START**: The user provides a query.\n2.  **THINK**: You break down the problem and create a plan.\n3.  **ACTION**: If a tool is needed, you call an ACTION with the tool name and the required input.\n4.  **OBSERVE**: After an action, you will receive an observation.\n5.  **OUTPUT**: Based on your thoughts and observations, you provide the final answer to the user.\n\n**Available Tools:**\n- addTwoNumbers(x, y): comma-separated string of two numbers.\n- writeFile(input): input is \x7b \"filePath\": ..., \"fileContent\": ... \x7d.\n\n**Output Format (Strict JSON):**\n\x7b \"step\": \"think\" | \"action\" | \"output\", \"tool\": ..., \"input\": ..., \"content\": ... \x7d"

/-- The canned acknowledgment turn seeded at src/index.js lines 237-244. -/
def ackText : String :=
  "\x7b\"step\": \"think\", \"tool\": null, \"input\": null, \"content\": \"Okay, I understand the instructions. I am a helpful assistant that can write files. I will follow the THINK, ACTION, OBSERVE, OUTPUT loop. I am ready for the user\x27s query.\"\x7d"

/-- The fresh `chatHistory` seeded for each query (lines 235-246): system
prompt, canned acknowledgment, user query. -/
def initialHistory (q : String) : List Turn :=
  [⟨"user", SYSTEM_PROMPT⟩, ⟨"model", ackText⟩, ⟨"user", q⟩]

/-- Models `userQuery.toLowerCase()` at line 230. -/
def jsToLower (s : String) : String := ⟨s.toList.map Char.toLower⟩

/-- The session driver `start` (src/index.js lines 226-251), driven by a
finite list of (query, oracle script) pairs standing for successive terminal
inputs: a query equal to `"exit"` (case-insensitively) closes the session;
any other query reseeds a fresh history, runs the conversation loop, and the
driver then prompts again (the `start()` call at line 220).  The filesystem
persists across queries.  Returns the final filesystem and each processed
query's exit. -/
def runSession (fs : FS) : List (String × List (Except String Decision)) → FS × List LoopExit
  | [] => (fs, [])
  | (q, script) :: rest =>
    if jsToLower q = "exit" then (fs, [])
    else
      let r := runConversation ⟨initialHistory q, fs, []⟩ script
      let s := runSession r.1.fs rest
      (s.1, r.2.1 :: s.2)

/-- The API key binding of src/index.js line 15: the hard-coded string
literal `"api key"`.  The parameter is the value of the `GEMINI_API_KEY`
process environment variable (`none` when the variable is absent); the code
never reads it. -/
def GEMINI_API_KEY (_env : Option String) : String := "api key"

/-- The startup guard of src/index.js lines 16-19: the process exits fatally
iff `!GEMINI_API_KEY`, i.e. iff the bound key string is falsy (empty). -/
def startupExits (env : Option String) : Bool := GEMINI_API_KEY env = ""

/-- Models `rawText.replace(/^```json\n?/, "")` at line 129: strips one
leading triple-backtick-json marker, with its optional newline, when
present. -/
def stripLeadingFence (cs : List Char) : List Char :=
  if ("```json\n".toList).isPrefixOf cs then cs.drop 8
  else if ("```json".toList).isPrefixOf cs then cs.drop 7
  else cs

/-- Models `.replace(/\n?```$/, "")` at line 130: strips one trailing
triple-backtick marker, with its optional preceding newline, when present. -/
def stripTrailingFence (cs : List Char) : List Char :=
  if ("\n```".toList).isSuffixOf cs then cs.take (cs.length - 4)
  else if ("```".toList).isSuffixOf cs then cs.take (cs.length - 3)
  else cs

/-- The `cleanedText` computation of src/index.js lines 128-130, on the
decoded response text (modeled at the character level). -/
def cleanedText (cs : List Char) : List Char :=
  stripTrailingFence (stripLeadingFence cs)

/-- A response text wrapped in a markdown code fence, as the model sometimes
returns it. -/
def fencedJson (cs : List Char) : List Char :=
  "```json\n".toList ++ cs ++ "\n```".toList

/-- A filesystem is well formed when every existing directory's ancestor
chain also exists — true of any real filesystem, where `fs.existsSync` of a
directory implies its parents exist. -/
def fsWellFormed (fs : FS) : Prop :=
  ∀ d, fs.dirs.contains d = true → ∀ x ∈ dirChain d, fs.dirs.contains x = true

/-- The empty filesystem. -/
def emptyFS : FS := ⟨[], []⟩

/-- The continuation shape of a loop iteration that neither fails nor
answers: the loop runs the rest of the oracle script from the updated state,
with one more oracle request consumed. -/
def continueRun (st : LoopState) (d : Decision) (rest : List (Except String Decision)) :
    LoopState × LoopExit × Nat :=
  ((runConversation (stepIteration st d).1 rest).1,
   (runConversation (stepIteration st d).1 rest).2.1,
   (runConversation (stepIteration st d).1 rest).2.2 + 1)

/-! ## Helper lemmas -/

theorem stepIteration_snd_eq_none (st : LoopState) (d : Decision) (h : d.step ≠ "output") :
    (stepIteration st d).2 = none := by
  unfold stepIteration
  split_ifs <;> simp_all

theorem runConversation_continue (st : LoopState) (d : Decision)
    (rest : List (Except String Decision)) (h : (stepIteration st d).2 = none) :
    runConversation st (Except.ok d :: rest) = continueRun st d rest := by
  simp only [runConversation, h, continueRun]

theorem stepIteration_of_output (st : LoopState) (d : Decision) (h : d.step = "output") :
    stepIteration st d =
      ({ st with history := st.history ++ [⟨"model", serializeDecision d⟩],
                 log := st.log ++ [("output", d.content)] }, some d.content) := by
  unfold stepIteration
  rw [if_neg (by simp [h]), if_neg (by simp [h]), if_pos h]

theorem lookupFile_setFile (fls : List (String × String)) (fp c : String) :
    lookupFile (setFile fls fp c) fp = some c := by
  induction fls with
  | nil => simp [setFile, lookupFile]
  | cons hd tl ih =>
    obtain ⟨p, c0⟩ := hd
    by_cases hp : p = fp <;> simp [setFile, lookupFile, hp, ih]

theorem contains_eq_true_iff_mem (l : List String) (a : String) :
    l.contains a = true ↔ a ∈ l := by
  simp [List.contains, List.elem_iff]

/-! ## Claim theorems -/

/-- C1: for every action Decision with tool `addTwoNumbers` whose input
string splits into two comma-separated operands that both parse as numbers,
the resulting Observation is their numeric sum; when either operand fails
numeric parse the Observation is the invalid-number error message; and every
action step continues the loop (one more request is made from the updated
state) rather than terminating it. -/
theorem claim_c1 :
    (∀ (fs : FS) (s s1 s2 : String) (a b : Int),
      jsSplit ',' s = [s1, s2] → jsNumber s1 = some a → jsNumber s2 = some b →
      dispatchTool fs (some "addTwoNumbers") (JSValue.vstr s) =
        (fs, ToolResult.num (addTwoNumbers a b)))
    ∧ (∀ (fs : FS) (s s1 s2 : String),
      jsSplit ',' s = [s1, s2] → (jsNumber s1 = none ∨ jsNumber s2 = none) →
      dispatchTool fs (some "addTwoNumbers") (JSValue.vstr s) =
        (fs, ToolResult.str "Error executing tool: Invalid number input."))
    ∧ (∀ (st : LoopState) (d : Decision) (rest : List (Except String Decision)),
      d.step = "action" →
      runConversation st (Except.ok d :: rest) = continueRun st d rest) := by
  refine ⟨?_, ?_, ?_⟩
  · intro fs s s1 s2 a b hsplit h1 h2
    simp [dispatchTool, runAddTwoNumbers, jsToString, hsplit, h1, h2]
  · intro fs s s1 s2 hsplit hbad
    rcases hbad with h1 | h2
    · simp [dispatchTool, runAddTwoNumbers, jsToString, hsplit, h1]
    · cases hx : jsNumber s1 <;>
        simp [dispatchTool, runAddTwoNumbers, jsToString, hsplit, hx, h2]
  · intro st d rest hstep
    exact runConversation_continue st d rest
      (stepIteration_snd_eq_none st d (by simp [hstep]))

/-- C1 witness: `"10,20"` yields the sum 30; `"abc,5"` yields the
invalid-number error observation. -/
theorem claim_c1_witness :
    (jsSplit ',' "10,20" = ["10", "20"] ∧ jsNumber "10" = some 10 ∧ jsNumber "20" = some 20 ∧
      dispatchTool emptyFS (some "addTwoNumbers") (JSValue.vstr "10,20") =
        (emptyFS, ToolResult.num (addTwoNumbers 10 20)))
    ∧ (jsSplit ',' "abc,5" = ["abc", "5"] ∧ jsNumber "abc" = none ∧
      dispatchTool emptyFS (some "addTwoNumbers") (JSValue.vstr "abc,5") =
        (emptyFS, ToolResult.str "Error executing tool: Invalid number input.")) :=
  ⟨⟨by decide, by decide, by decide,
    claim_c1.1 emptyFS "10,20" "10" "20" 10 20 (by decide) (by decide) (by decide)⟩,
   ⟨by decide, by decide,
    claim_c1.2.1 emptyFS "abc,5" "abc" "5" (by decide) (Or.inl (by decide))⟩⟩

/-- C3: for every action Decision naming a tool other than the two registered
ones, the Observation text is exactly `"Unknown tool: <name>"` (printed after
`Result: ` and fed back wrapped as an observe turn), the filesystem is
untouched, and the loop continues to the next iteration. -/
theorem claim_c3 :
    ∀ (st : LoopState) (d : Decision) (name : String) (rest : List (Except String Decision)),
    d.step = "action" → d.tool = some name →
    name ≠ "addTwoNumbers" → name ≠ "writeFile" →
    stepIteration st d =
      ({ st with
          history := st.history ++
            [⟨"model", serializeDecision d⟩,
             ⟨"user", observationText (ToolResult.str ("Unknown tool: " ++ name))⟩],
          log := st.log ++
            [("action", actionAnnouncement d),
             ("observe", "Result: " ++ ("Unknown tool: " ++ name))],
          fs := st.fs }, none) ∧
    runConversation st (Except.ok d :: rest) = continueRun st d rest := by
  intro st d name rest hstep htool h1 h2
  constructor
  · unfold stepIteration
    rw [if_neg (by simp [hstep]), if_pos hstep]
    simp [dispatchTool, htool, h1, h2, resultText, toolDisplay]
  · exact runConversation_continue st d rest
      (stepIteration_snd_eq_none st d (by simp [hstep]))

/-- C3 witness: the unregistered tool name `"frobnicate"` produces exactly the
`Unknown tool: frobnicate` observation and the loop continues. -/
theorem claim_c3_witness :
    ((Decision.mk "action" (some "frobnicate") JSValue.vnull "").step = "action" ∧
      (Decision.mk "action" (some "frobnicate") JSValue.vnull "").tool = some "frobnicate" ∧
      "frobnicate" ≠ "addTwoNumbers" ∧ "frobnicate" ≠ "writeFile") ∧
    stepIteration ⟨[], emptyFS, []⟩ (Decision.mk "action" (some "frobnicate") JSValue.vnull "") =
      ({ history :=
           [⟨"model", serializeDecision (Decision.mk "action" (some "frobnicate") JSValue.vnull "")⟩,
            ⟨"user", observationText (ToolResult.str ("Unknown tool: " ++ "frobnicate"))⟩],
         fs := emptyFS,
         log := [("action", actionAnnouncement (Decision.mk "action" (some "frobnicate") JSValue.vnull "")),
                 ("observe", "Result: " ++ ("Unknown tool: " ++ "frobnicate"))] }, none) ∧
    runConversation ⟨[], emptyFS, []⟩
        [Except.ok (Decision.mk "action" (some "frobnicate") JSValue.vnull "")] =
      continueRun ⟨[], emptyFS, []⟩ (Decision.mk "action" (some "frobnicate") JSValue.vnull "") [] := by
  refine ⟨⟨rfl, rfl, by decide, by decide⟩, ?_, ?_⟩
  · exact (claim_c3 ⟨[], emptyFS, []⟩ _ "frobnicate" [] rfl rfl (by decide) (by decide)).1
  · exact (claim_c3 ⟨[], emptyFS, []⟩ _ "frobnicate" [] rfl rfl (by decide) (by decide)).2

/-- C6 (code bug): the claim says the oracle API key is read from the process
environment and its absence exits the process at startup.  The code instead
hard-codes the key to the literal `"api key"` (line 15) and never reads the
environment, so with the environment variable absent the guard at lines
16-19 sees a truthy string and the process does not exit. -/
theorem claim_c6 :
    GEMINI_API_KEY none = "api key" ∧ startupExits none = false := by
  constructor <;> rfl

/-- C8: for every think Decision, the iteration appends exactly the
serialized Decision as a model Turn (no Observation turn), leaves the
filesystem untouched, surfaces the content as a thought, and the loop
re-enters the await-decision state. -/
theorem claim_c8 :
    ∀ (st : LoopState) (d : Decision) (rest : List (Except String Decision)),
    d.step = "think" →
    stepIteration st d =
      ({ st with history := st.history ++ [⟨"model", serializeDecision d⟩],
                 log := st.log ++ [("think", d.content)] }, none) ∧
    runConversation st (Except.ok d :: rest) = continueRun st d rest := by
  intro st d rest hstep
  constructor
  · unfold stepIteration
    rw [if_pos hstep]
  · exact runConversation_continue st d rest
      (stepIteration_snd_eq_none st d (by simp [hstep]))

/-- C8 witness: a concrete think Decision appends only its serialized model
Turn and the loop continues. -/
theorem claim_c8_witness :
    (Decision.mk "think" none JSValue.vnull "planning").step = "think" ∧
    stepIteration ⟨[], emptyFS, []⟩ (Decision.mk "think" none JSValue.vnull "planning") =
      ({ history := [⟨"model", serializeDecision (Decision.mk "think" none JSValue.vnull "planning")⟩],
         fs := emptyFS,
         log := [("think", "planning")] }, none) ∧
    runConversation ⟨[], emptyFS, []⟩ [Except.ok (Decision.mk "think" none JSValue.vnull "planning")] =
      continueRun ⟨[], emptyFS, []⟩ (Decision.mk "think" none JSValue.vnull "planning") [] := by
  refine ⟨rfl, ?_, ?_⟩
  · exact (claim_c8 ⟨[], emptyFS, []⟩ _ [] rfl).1
  · exact (claim_c8 ⟨[], emptyFS, []⟩ _ [] rfl).2

/-- C9: for every parsed Decision whose step is none of think/action/output,
the iteration appends the serialized Decision to the history, prints nothing,
changes nothing else, and the loop immediately issues the next oracle
request. -/
theorem claim_c9 :
    ∀ (st : LoopState) (d : Decision) (rest : List (Except String Decision)),
    d.step ≠ "think" → d.step ≠ "action" → d.step ≠ "output" →
    stepIteration st d =
      ({ st with history := st.history ++ [⟨"model", serializeDecision d⟩] }, none) ∧
    runConversation st (Except.ok d :: rest) = continueRun st d rest := by
  intro st d rest h1 h2 h3
  constructor
  · unfold stepIteration
    rw [if_neg h1, if_neg h2, if_neg h3]
  · exact runConversation_continue st d rest (stepIteration_snd_eq_none st d h3)

/-- C9 witness: a Decision with the unrecognized step `"plan"` is appended
silently and the loop continues. -/
theorem claim_c9_witness :
    ((Decision.mk "plan" none JSValue.vnull "x").step ≠ "think" ∧
      (Decision.mk "plan" none JSValue.vnull "x").step ≠ "action" ∧
      (Decision.mk "plan" none JSValue.vnull "x").step ≠ "output") ∧
    stepIteration ⟨[], emptyFS, []⟩ (Decision.mk "plan" none JSValue.vnull "x") =
      ({ history := [⟨"model", serializeDecision (Decision.mk "plan" none JSValue.vnull "x")⟩],
         fs := emptyFS, log := [] }, none) ∧
    runConversation ⟨[], emptyFS, []⟩ [Except.ok (Decision.mk "plan" none JSValue.vnull "x")] =
      continueRun ⟨[], emptyFS, []⟩ (Decision.mk "plan" none JSValue.vnull "x") [] := by
  refine ⟨⟨by decide, by decide, by decide⟩, ?_, ?_⟩
  · exact (claim_c9 ⟨[], emptyFS, []⟩ _ [] (by decide) (by decide) (by decide)).1
  · exact (claim_c9 ⟨[], emptyFS, []⟩ _ [] (by decide) (by decide) (by decide)).2

/-- C10: an empty operand does not trigger the invalid-input error, because
`Number("")` is 0: the empty string parses to 0 and the Observation is the
sum with 0 substituted (`"5,"` yields 5, `",5"` yields 5); operands beyond
the first two are silently ignored (`"1,2,3"` yields 3). -/
theorem claim_c10 :
    jsNumber "" = some 0
    ∧ (∀ (s s1 : String) (a : Int),
      jsSplit ',' s = [s1, ""] → jsNumber s1 = some a →
      runAddTwoNumbers s = ToolResult.num a)
    ∧ (∀ (s s2 : String) (b : Int),
      jsSplit ',' s = ["", s2] → jsNumber s2 = some b →
      runAddTwoNumbers s = ToolResult.num b)
    ∧ (∀ (s s1 s2 : String) (rest : List String) (a b : Int),
      jsSplit ',' s = s1 :: s2 :: rest → jsNumber s1 = some a → jsNumber s2 = some b →
      runAddTwoNumbers s = ToolResult.num (addTwoNumbers a b)) := by
  refine ⟨by decide, ?_, ?_, ?_⟩
  · intro s s1 a hsplit h1
    have h0 : jsNumber "" = some 0 := by decide
    simp [runAddTwoNumbers, hsplit, h1, h0, addTwoNumbers]
  · intro s s2 b hsplit h2
    have h0 : jsNumber "" = some 0 := by decide
    simp [runAddTwoNumbers, hsplit, h2, h0, addTwoNumbers]
  · intro s s1 s2 rest a b hsplit h1 h2
    simp [runAddTwoNumbers, hsplit, h1, h2]

/-- C4: every oracle-client failure (transport error, non-2xx status, content
block, or unparseable response — all caught inside `callGemini` and collapsed
to a null return) prints the error-category line and terminates the current
query's loop at once; the model is a total function, so no exception escapes;
and the session driver goes on to process the remaining queries afterward,
the failed query contributing a `failed` exit and leaving the filesystem
untouched. -/
theorem claim_c4 :
    (∀ (st : LoopState) (msg : String) (rest : List (Except String Decision)),
      runConversation st (Except.error msg :: rest) =
        ({ st with log := st.log ++ [("error", geminiErrorLine msg)] }, LoopExit.failed, 1))
    ∧ (∀ (fs : FS) (q1 msg : String) (rest : List (String × List (Except String Decision))),
      jsToLower q1 ≠ "exit" →
      runSession fs ((q1, [Except.error msg]) :: rest) =
        ((runSession fs rest).1, LoopExit.failed :: (runSession fs rest).2)) := by
  constructor
  · intro st msg rest
    simp [runConversation]
  · intro fs q1 msg rest h
    simp [runSession, h, runConversation]

/-- C4 witness: a failing first query ("add 1 and 2", transport error) still
lets the driver process the next query. -/
theorem claim_c4_witness :
    jsToLower "add 1 and 2" ≠ "exit" ∧
    runSession emptyFS [("add 1 and 2", [Except.error "network down"]), ("again", [])] =
      ((runSession emptyFS [("again", [])]).1,
        LoopExit.failed :: (runSession emptyFS [("again", [])]).2) :=
  ⟨by decide,
   claim_c4.2 emptyFS "add 1 and 2" "network down" [("again", [])] (by decide)⟩

/-- C5: once a Decision with step `output` is received, the loop ends exactly
once for that query — the run over any script whose first output Decision is
preceded only by non-output Decisions equals the run that stops there, its
exit carries the Decision's content as the final answer, and exactly
`pre.length + 1` oracle requests are made no matter what follows in the
script. -/
theorem claim_c5 :
    ∀ (pre : List Decision) (st : LoopState) (d : Decision)
      (post : List (Except String Decision)),
    (∀ d' ∈ pre, d'.step ≠ "output") → d.step = "output" →
    runConversation st (pre.map Except.ok ++ Except.ok d :: post) =
      ((runConversation st (pre.map Except.ok ++ [Except.ok d])).1,
       LoopExit.answered d.content, pre.length + 1) := by
  intro pre
  induction pre with
  | nil =>
    intro st d post hpre hd
    have hsome : (stepIteration st d).2 = some d.content := by
      rw [stepIteration_of_output st d hd]
    simp [runConversation, hsome]
  | cons p ps ih =>
    intro st d post hpre hd
    have hp : (stepIteration st p).2 = none :=
      stepIteration_snd_eq_none st p (hpre p (by simp))
    have ih1 := ih (stepIteration st p).1 d post
      (fun d' hm => hpre d' (by simp [hm])) hd
    simp only [List.map_cons, List.cons_append, List.length_cons]
    rw [runConversation_continue st p (ps.map Except.ok ++ Except.ok d :: post) hp,
        runConversation_continue st p (ps.map Except.ok ++ [Except.ok d]) hp]
    simp only [continueRun, ih1]

/-- C5 witness: one think step, then an output step, then a further scripted
decision that is never requested: the loop answers after exactly 2 requests. -/
theorem claim_c5_witness :
    (∀ d' ∈ [Decision.mk "think" none JSValue.vnull "t"], d'.step ≠ "output") ∧
    (Decision.mk "output" none JSValue.vnull "done").step = "output" ∧
    runConversation ⟨[], emptyFS, []⟩
        ([Decision.mk "think" none JSValue.vnull "t"].map Except.ok ++
          Except.ok (Decision.mk "output" none JSValue.vnull "done") ::
            [Except.ok (Decision.mk "think" none JSValue.vnull "never")]) =
      ((runConversation ⟨[], emptyFS, []⟩
          ([Decision.mk "think" none JSValue.vnull "t"].map Except.ok ++
            [Except.ok (Decision.mk "output" none JSValue.vnull "done")])).1,
       LoopExit.answered "done", [Decision.mk "think" none JSValue.vnull "t"].length + 1) :=
  ⟨by decide, rfl,
   claim_c5 [Decision.mk "think" none JSValue.vnull "t"] ⟨[], emptyFS, []⟩
     (Decision.mk "output" none JSValue.vnull "done")
     [Except.ok (Decision.mk "think" none JSValue.vnull "never")] (by decide) rfl⟩

/-! ## Fence-stripping lemmas for C7 -/

theorem isPrefixOf_append_self (p r : List Char) : p.isPrefixOf (p ++ r) = true := by
  induction p with
  | nil => simp
  | cons c cs ih => simp [List.isPrefixOf, ih]

theorem isSuffixOf_append_self (s r : List Char) : s.isSuffixOf (r ++ s) = true := by
  unfold List.isSuffixOf
  rw [List.reverse_append]
  exact isPrefixOf_append_self _ _

/-- C7: for every response text that is a single JSON object (it starts with
an opening brace and ends with a closing brace), the client's fence-stripping
leaves the bare text unchanged and recovers exactly the same text from its
fenced form, so both forms are parsed from identical characters and yield the
same Decision. -/
theorem claim_c7 :
    ∀ (mid : List Char),
    mid.head? = some '\x7b' → mid.getLast? = some '\x7d' →
    cleanedText (fencedJson mid) = mid ∧ cleanedText mid = mid := by
  have hfence : ∀ (m : List Char), cleanedText (fencedJson m) = m := by
    intro m
    unfold cleanedText fencedJson stripLeadingFence
    rw [List.append_assoc, if_pos (isPrefixOf_append_self _ _)]
    have hdrop : ("```json\n".toList ++ (m ++ "\n```".toList)).drop 8 = m ++ "\n```".toList := by
      have h8 : ("```json\n".toList).length = 8 := by decide
      rw [← h8, List.drop_left]
    rw [hdrop]
    unfold stripTrailingFence
    rw [if_pos (isSuffixOf_append_self _ _)]
    have hlen : (m ++ "\n```".toList).length - 4 = m.length := by
      have h4 : ("\n```".toList).length = 4 := by decide
      simp [List.length_append, h4]
    rw [hlen]
    exact List.take_left m _
  intro mid hhead hlast
  refine ⟨hfence mid, ?_⟩
  cases mid with
  | nil => simp at hhead
  | cons c t =>
    have hc : c = '\x7b' := by simpa using hhead
    subst hc
    have e1 : (("```json\n".toList).isPrefixOf ('\x7b' :: t)) = false := rfl
    have e2 : (("```json".toList).isPrefixOf ('\x7b' :: t)) = false := rfl
    have hlead : stripLeadingFence ('\x7b' :: t) = '\x7b' :: t := by
      simp [stripLeadingFence, e1, e2]
    have hrev : ('\x7b' :: t).reverse.head? = some '\x7d' := by
      rw [List.head?_reverse]; exact hlast
    cases hr : ('\x7b' :: t).reverse with
    | nil => rw [hr] at hrev; simp at hrev
    | cons c2 r2 =>
      rw [hr] at hrev
      have hc2 : c2 = '\x7d' := by simpa using hrev
      subst hc2
      have e3 : (("\n```".toList).isSuffixOf ('\x7b' :: t)) = false := by
        unfold List.isSuffixOf
        rw [hr]
        rfl
      have e4 : (("```".toList).isSuffixOf ('\x7b' :: t)) = false := by
        unfold List.isSuffixOf
        rw [hr]
        rfl
      unfold cleanedText
      rw [hlead]
      unfold stripTrailingFence
      rw [e3, e4]
      simp

/-- C7 witness: a concrete JSON object text is recovered identically from its
fenced and bare forms. -/
theorem claim_c7_witness :
    ("\x7b\"a\":1\x7d".toList).head? = some '\x7b' ∧
    ("\x7b\"a\":1\x7d".toList).getLast? = some '\x7d' ∧
    (cleanedText (fencedJson ("\x7b\"a\":1\x7d".toList)) = "\x7b\"a\":1\x7d".toList ∧
      cleanedText ("\x7b\"a\":1\x7d".toList) = "\x7b\"a\":1\x7d".toList) :=
  ⟨by decide, by decide, claim_c7 ("\x7b\"a\":1\x7d".toList) (by decide) (by decide)⟩

/-! ## Filesystem lemmas for C2 -/

theorem mem_dirs_mkdirRecursive (fs : FS) (d x : String) (hx : x ∈ dirChain d) :
    (mkdirRecursive fs d).dirs.contains x = true := by
  rw [contains_eq_true_iff_mem]
  simp only [mkdirRecursive]
  rw [List.mem_append]
  by_cases hc : fs.dirs.contains x = true
  · left
    exact (contains_eq_true_iff_mem _ _).1 hc
  · right
    rw [List.mem_filter]
    have hc' : fs.dirs.contains x = false := by simpa using hc
    exact ⟨hx, by simp only [hc', Bool.not_false]⟩

theorem utf8Len_foldl_ascii :
    ∀ (l : List Char) (n : Nat), (∀ c ∈ l, c.toNat < 128) →
    l.foldl (fun n c => n + utf8CharLen c) n = n + l.length := by
  intro l
  induction l with
  | nil => intro n _; simp
  | cons c cs ih =>
    intro n h
    have hc : c.toNat < 128 := h c (by simp)
    have hone : utf8CharLen c = 1 := by simp [utf8CharLen, hc]
    rw [List.foldl_cons, hone, ih (n + 1) (fun c' hc' => h c' (by simp [hc']))]
    simp only [List.length_cons]
    omega

/-- C2 counterexample: the claim as stated says the Observation reports the
byte length written, but for the one-character content `"é"` the code reports
`fileContent.length = 1` while `fs.writeFileSync` writes 2 UTF-8 bytes. -/
theorem claim_c2_counterexample :
    (dispatchTool emptyFS (some "writeFile") (JSValue.vobj (some "f") (some "é"))).2 =
      ToolResult.str "Successfully wrote 1 bytes to f" ∧
    utf8Len "é" = 2 ∧ (1 : Nat) ≠ 2 := by
  refine ⟨by decide, by decide, by decide⟩

/-- C2 (amended): executing `writeFile` on an object input with non-empty
`filePath` and defined `fileContent` creates every missing intermediate
directory of the path (no error when they already exist — on a well-formed
filesystem the whole chain exists afterwards in either case), overwrites the
file at that path with exactly the given content, and reports the content's
character (UTF-16 code unit) count as the byte count — a figure that equals
the true UTF-8 byte length whenever the content is ASCII, as in the spec's
`"hi"` example. -/
theorem claim_c2_amended :
    ∀ (fs : FS) (fp content : String),
    fsWellFormed fs → fp ≠ "" →
    (dispatchTool fs (some "writeFile") (JSValue.vobj (some fp) (some content))).2 =
      ToolResult.str ("Successfully wrote " ++ toString content.length ++ " bytes to " ++ fp) ∧
    lookupFile (dispatchTool fs (some "writeFile")
        (JSValue.vobj (some fp) (some content))).1.files fp = some content ∧
    (∀ x ∈ dirChain (dirname fp),
      (dispatchTool fs (some "writeFile")
        (JSValue.vobj (some fp) (some content))).1.dirs.contains x = true) ∧
    ((∀ c ∈ content.toList, c.toNat < 128) → utf8Len content = content.length) := by
  intro fs fp content hwf hfp
  have hd : dispatchTool fs (some "writeFile") (JSValue.vobj (some fp) (some content)) =
      ((writeFile fs fp content).1, ToolResult.str (writeFile fs fp content).2) := by
    simp [dispatchTool, hfp]
  refine ⟨?_, ?_, ?_, ?_⟩
  · rw [hd]
    simp [writeFile]
  · rw [hd]
    simp only [writeFile]
    exact lookupFile_setFile _ _ _
  · intro x hx
    rw [hd]
    simp only [writeFile]
    by_cases hc : fs.dirs.contains (dirname fp) = true
    · simp only [if_pos hc]
      exact hwf (dirname fp) hc x hx
    · simp only [if_neg hc]
      exact mem_dirs_mkdirRecursive fs (dirname fp) x hx
  · intro hascii
    unfold utf8Len
    rw [utf8Len_foldl_ascii content.toList 0 hascii, Nat.zero_add]
    rfl

/-- C2 witness: `writeFile \x7b filePath: "out/sub/file.txt", fileContent:
"hi" \x7d` on the empty filesystem creates the directory chain, stores the
content, and reports exactly 2 bytes. -/
theorem claim_c2_amended_witness :
    fsWellFormed emptyFS ∧ ("out/sub/file.txt" : String) ≠ "" ∧
    ((dispatchTool emptyFS (some "writeFile")
        (JSValue.vobj (some "out/sub/file.txt") (some "hi"))).2 =
      ToolResult.str ("Successfully wrote " ++ toString ("hi" : String).length ++
        " bytes to " ++ "out/sub/file.txt") ∧
    lookupFile (dispatchTool emptyFS (some "writeFile")
        (JSValue.vobj (some "out/sub/file.txt") (some "hi"))).1.files "out/sub/file.txt" =
      some "hi" ∧
    (∀ x ∈ dirChain (dirname "out/sub/file.txt"),
      (dispatchTool emptyFS (some "writeFile")
        (JSValue.vobj (some "out/sub/file.txt") (some "hi"))).1.dirs.contains x = true) ∧
    ((∀ c ∈ ("hi" : String).toList, c.toNat < 128) →
      utf8Len "hi" = ("hi" : String).length)) :=
  ⟨fun _ h => absurd h Bool.false_ne_true, by decide,
   claim_c2_amended emptyFS "out/sub/file.txt" "hi"
     (fun _ h => absurd h Bool.false_ne_true) (by decide)⟩

/-- C10 witness: `"5,"` yields 5, `",5"` yields 5, `"1,2,3"` yields 3. -/
theorem claim_c10_witness :
    (jsSplit ',' "5," = ["5", ""] ∧ jsNumber "5" = some 5 ∧
      runAddTwoNumbers "5," = ToolResult.num 5)
    ∧ (jsSplit ',' ",5" = ["", "5"] ∧
      runAddTwoNumbers ",5" = ToolResult.num 5)
    ∧ (jsSplit ',' "1,2,3" = ["1", "2", "3"] ∧ jsNumber "1" = some 1 ∧ jsNumber "2" = some 2 ∧
      runAddTwoNumbers "1,2,3" = ToolResult.num (addTwoNumbers 1 2)) :=
  ⟨⟨by decide, by decide, claim_c10.2.1 "5," "5" 5 (by decide) (by decide)⟩,
   ⟨by decide, claim_c10.2.2.1 ",5" "5" 5 (by decide) (by decide)⟩,
   ⟨by decide, by decide, by decide,
    claim_c10.2.2.2 "1,2,3" "1" "2" ["3"] 1 2 (by decide) (by decide) (by decide)⟩⟩

end Codus
